import Mathlib

/-!
Verification of the feed polling and delivery pipeline of feeedy, a shallow
embedding of `feed_manager.py`, `user_manager.py`, `db.py`, `ai_summary.py`
and `utils.py`.  Persistent tables become explicit state records, Python
exceptions become `Except` values, and `datetime.utcnow()` timestamps become a
strictly increasing natural-number clock.
-/

namespace Feeedy

/-- Python `str.lower` on the ASCII strings this pipeline handles:
`Char.toLower` maps A-Z to a-z and leaves every other character unchanged. -/
def pyLower (s : String) : String :=
  String.mk (s.data.map Char.toLower)

/-- Char-by-char pass of the Python substring test `needle in hay`. -/
def listContains (needle : List Char) : List Char → Bool
  | [] => needle.isEmpty
  | c :: rest => needle.isPrefixOf (c :: rest) || listContains needle rest

/-- Python `needle in hay` on strings. -/
def pyIn (needle hay : String) : Bool :=
  listContains needle.data hay.data

/-- A parsed feed entry as the dict that feedparser hands to feed_manager;
`entry.get(k)` yields `none` when the key is missing. -/
structure RawEntry where
  id : Option String := none
  link : Option String := none
  title : Option String := none
  summary : Option String := none
  description : Option String := none
  published : Option String := none
  updated : Option String := none
deriving DecidableEq

/-- Python `a or b` for an optional string `a`: a present non-empty string is
truthy and wins; `None` or `""` falls through to `b`. -/
def pyOrS (a : Option String) (b : String) : String :=
  match a with
  | some s => if s = "" then b else s
  | none => b

/-- feed_manager.get_entry_id (lines 44-45):
`entry.get("id") or entry.get("link") or entry.get("title", "unknown")`. -/
def get_entry_id (e : RawEntry) : String :=
  pyOrS e.id (pyOrS e.link (e.title.getD "unknown"))

/-- The entry-collecting loop of feed_manager.get_new_entries (lines 59-75):
walk the newest-first entry list; with no stored watermark take only the first
entry; otherwise accumulate entries until one derives the watermark id. -/
def collect_new (last_seen_id : Option String) : List RawEntry → List RawEntry
  | [] => []
  | e :: rest =>
    match last_seen_id with
    | none => [e]
    | some w => if get_entry_id e = w then [] else e :: collect_new (some w) rest

/-- feed_manager.get_new_entries (lines 48-85) run against a watermark store
holding `last_seen` for this feed: returns the new entries (newest-first) and
the watermark stored afterwards.  `latest_id` is the first entry's derived id;
db.update_last_seen persists it only when it is truthy (a non-empty string)
and at least one new entry was found (line 78). -/
def get_new_entries (last_seen : Option String) (entries : List RawEntry) :
    List RawEntry × Option String :=
  match entries with
  | [] => ([], last_seen)
  | e0 :: _ =>
    let latest_id := get_entry_id e0
    let new_entries := collect_new last_seen entries
    if latest_id ≠ "" ∧ new_entries ≠ [] then (new_entries, some latest_id)
    else (new_entries, last_seen)

/-- A row of the users table as db.get_all_users and db.get_user shape it:
keys "uid", "uname", "cats", "keywords". -/
structure UserRow where
  uid : Nat
  uname : String
  cats : List String
  keywords : List String
deriving DecidableEq

/-- Python dict access on a users row for its list-of-strings valued keys; the
rows carry "cats" and "keywords", any other key raises KeyError. -/
def userRowGetList (u : UserRow) (key : String) : Except String (List String) :=
  if key = "cats" then Except.ok u.cats
  else if key = "keywords" then Except.ok u.keywords
  else Except.error ("KeyError: " ++ key)

/-- user_manager.get_users_by_cat (lines 93-103): filter db.get_all_users by
`cat in user["subscribed_cats"]`.  The rows carry the key "cats", not
"subscribed_cats", so the comprehension raises KeyError on its first element
and the except-handler returns the empty list. -/
def get_users_by_cat (allUsers : List UserRow) (cat : String) : List UserRow :=
  match allUsers.mapM
      (fun u => (userRowGetList u "subscribed_cats").map (fun cs => (u, cs))) with
  | Except.ok pairs => (pairs.filter (fun p => p.2.contains cat)).map (fun p => p.1)
  | Except.error _ => []

/-- user_manager.should_show_post (lines 125-141).  The keyword lookup
(user_manager.get_user_keywords backed by db.get_user) is passed in as an
`Except`; `Except.error` stands for an exception raised while evaluating the
filter, which the handler at lines 138-140 turns into True (fail open).  On
success an empty keyword list always passes, and otherwise the post passes iff
some lowercased keyword occurs in the lowercased f-string "{title} {summary}"
(title and summary joined by one space). -/
def should_show_post (keywordsFetch : Except String (List String))
    (title summary : String) : Bool :=
  match keywordsFetch with
  | Except.error _ => true
  | Except.ok keywords =>
    if keywords.isEmpty then true
    else
      let content := pyLower (title ++ " " ++ summary)
      keywords.any (fun k => pyIn (pyLower k) content)

/-- Modelled from the spec wording of the keyword rule for comparison with
`should_show_post`: passes iff at least one keyword (case-insensitive) is a
substring of the concatenation of title and summary. -/
def spec_keyword_pass (keywords : List String) (title summary : String) : Bool :=
  if keywords.isEmpty then true
  else keywords.any (fun k => pyIn (pyLower k) (pyLower (title ++ summary)))

/-- A row of the unread_posts table (db.py lines 60-72): autoincrement id,
owner, category, content fields and a creation timestamp.  Timestamps are a
natural-number clock: db.add_unread_post stamps `datetime.utcnow()`, which
strictly increases across successive inserts. -/
structure MPost where
  pid : Nat
  uid : Nat
  cat : String
  title : String
  link : String
  published : Option String
  summary : Option String
  created_at : Nat
deriving DecidableEq

/-- The unread_posts table with the autoincrement counter and the clock used
to stamp created_at. -/
structure UnreadTable where
  rows : List MPost
  nextId : Nat
  clock : Nat
deriving DecidableEq

def emptyTable : UnreadTable := { rows := [], nextId := 1, clock := 0 }

/-- db.add_unread_post (lines 308-321): INSERT one row stamped with the
current time. -/
def add_unread_post (t : UnreadTable) (uid : Nat) (cat title link : String)
    (published summary : Option String) : UnreadTable :=
  let p : MPost :=
    { pid := t.nextId, uid := uid, cat := cat, title := title, link := link,
      published := published, summary := summary, created_at := t.clock }
  { rows := t.rows ++ [p], nextId := t.nextId + 1, clock := t.clock + 1 }

/-- The `WHERE uid = ? AND cat = ?` test of db.trim_unread_posts. -/
def matchesPair (uid : Nat) (cat : String) (p : MPost) : Bool :=
  p.uid == uid && p.cat == cat

/-- The unread posts stored for one (subscriber, category) pair, in insertion
order (which is also increasing created_at order for tables built by
`add_unread_post`). -/
def pairRows (t : UnreadTable) (uid : Nat) (cat : String) : List MPost :=
  t.rows.filter (matchesPair uid cat)

/-- db.trim_unread_posts (lines 376-395): DELETE the rows of the (uid, cat)
pair whose id is not in the `limit` most recent by created_at
(`ORDER BY created_at DESC LIMIT ?`).  A row is in the subquery's result iff
fewer than `limit` rows of the pair have a strictly greater created_at; this
rendering agrees with SQLite whenever created_at is injective on the pair,
which holds for every table built by `add_unread_post` since the clock
strictly increases. -/
def trim_unread_posts (t : UnreadTable) (uid : Nat) (cat : String)
    (limit : Nat) : UnreadTable :=
  { t with rows := t.rows.filter (fun p =>
      !(matchesPair uid cat p) ||
        decide ((t.rows.filter (fun q =>
          matchesPair uid cat q && decide (p.created_at < q.created_at))).length
            < limit)) }

/-- One enqueue request: the arguments of one db.add_unread_post call. -/
structure EnqReq where
  uid : Nat
  cat : String
  title : String
  link : String
  published : Option String := none
  summary : Option String := none
deriving DecidableEq

/-- A sequence of mailbox enqueues. -/
def enqueue_all (t : UnreadTable) (reqs : List EnqReq) : UnreadTable :=
  reqs.foldl (fun acc r =>
    add_unread_post acc r.uid r.cat r.title r.link r.published r.summary) t

/-- Model of the tag-stripping substitution in utils.clean_html line 38
(re.sub of the pattern matching a `<`, one or more non-`>` characters and a
`>`, replaced by nothing).  The first argument buffers the characters read
since an as-yet-unmatched `<` (`none` when outside such a span): a span with a
non-empty body up to the next `>` is dropped; a `<` immediately followed by
`>` or never followed by `>` is kept verbatim. -/
def stripTagsGo : Option (List Char) → List Char → List Char
  | none, [] => []
  | none, c :: rest =>
    if c = '<' then stripTagsGo (some []) rest else c :: stripTagsGo none rest
  | some buf, [] => '<' :: buf
  | some buf, c :: rest =>
    if c = '>' then
      if buf.isEmpty then '<' :: '>' :: stripTagsGo none rest
      else stripTagsGo none rest
    else stripTagsGo (some (buf ++ [c])) rest

/-- Model of the whitespace collapsing in utils.clean_html line 49 (re.sub
replacing each maximal whitespace run by a single space); the flag records
whether the previous character belonged to a run. -/
def collapseWsGo : Bool → List Char → List Char
  | _, [] => []
  | prevWs, c :: rest =>
    if c.isWhitespace then
      if prevWs then collapseWsGo true rest
      else ' ' :: collapseWsGo true rest
    else c :: collapseWsGo false rest

/-- Python str.strip: drop leading and trailing whitespace. -/
def pyStrip (cs : List Char) : List Char :=
  ((cs.dropWhile Char.isWhitespace).reverse.dropWhile Char.isWhitespace).reverse

/-- The six HTML entity replacements of utils.clean_html lines 41-46, applied
in source order via Python str.replace.  The quote and apostrophe replacement
characters are spelled by code point. -/
def htmlUnescape (s : String) : String :=
  ((((( s.replace "&amp;" "&").replace "&lt;" "<").replace "&gt;" ">"
      ).replace "&quot;" (String.mk [Char.ofNat 34])
      ).replace (String.mk ['&', '#', '3', '9', ';']) (String.mk [Char.ofNat 39])
      ).replace "&nbsp;" " "

/-- utils.clean_html (lines 33-51): falsy text short-circuits to ""; otherwise
strip tags, decode the six entities, collapse whitespace runs and strip the
ends. -/
def clean_html (text : String) : String :=
  if text = "" then ""
  else
    let t1 := String.mk (stripTagsGo none text.data)
    let t2 := htmlUnescape t1
    String.mk (pyStrip (collapseWsGo false t2.data))

/-- The persistent state the poll pipeline touches for one feed: the feed's
row of the last_seen table, the users table, and the unread_posts table. -/
structure PollState where
  last_seen : Option String
  users : List UserRow
  table : UnreadTable
deriving DecidableEq

/-- Python attribute lookup on the user_manager module, restricted to its
subscriber-resolution functions: the module defines get_users_by_cat
(user_manager.py line 93) and nothing called get_users_by_category, so asking
for the latter raises AttributeError. -/
def user_manager_attr (name : String) :
    Except String (List UserRow → String → List UserRow) :=
  if name = "get_users_by_cat" then Except.ok get_users_by_cat
  else Except.error ("AttributeError: module user_manager has no attribute " ++ name)

/-- The per-entry fan-out body of feed_manager.process_feed (lines 109-147):
for one new entry, extract title, link, summary and published, then for each
resolved user run the keyword filter and, when it passes, enqueue the post and
trim the pair to 10.  The push to Discord at lines 137-147 is a stateless
best-effort side channel and does not touch the stored state. -/
def fanout_entry (users : List UserRow) (cat : String) (t : UnreadTable)
    (e : RawEntry) : UnreadTable :=
  let title := e.title.getD "No title"
  let link := e.link.getD ""
  let summary := clean_html (e.summary.getD (e.description.getD ""))
  let published := e.published.getD (e.updated.getD "")
  users.foldl (fun acc u =>
    if should_show_post (Except.ok u.keywords) title summary then
      trim_unread_posts
        (add_unread_post acc u.uid cat title link (some published) (some summary))
        u.uid cat 10
    else acc) t

/-- feed_manager.process_feed (lines 88-153).  `fetch` is the fetch_feed
result (`none` = unavailable).  get_new_entries stores the new watermark;
then the subscriber resolution at line 106 asks the user_manager module for
get_users_by_category, the attribute lookup raises, and the except-handler at
lines 151-153 returns 0.  The fan-out under `Except.ok` is the code of lines
106-149 as it would run if the attribute existed. -/
def process_feed (st : PollState) (cat : String)
    (fetch : Option (List RawEntry)) : Nat × PollState :=
  match fetch with
  | none => (0, st)
  | some entries =>
    let r := get_new_entries st.last_seen entries
    let st1 : PollState := { st with last_seen := r.2 }
    if r.1.isEmpty then (0, st1)
    else
      match user_manager_attr "get_users_by_category" with
      | Except.error _ => (0, st1)
      | Except.ok resolve =>
        let users := resolve st1.users cat
        (r.1.length,
          { st1 with table := r.1.reverse.foldl (fanout_entry users cat) st1.table })

/-- Python dict access on an unread-posts row as db.get_unread_posts shapes it
(keys "id", "cat", "title", "link", "published", "summary", "created_at"),
restricted to the string-valued keys ai_summary reads. -/
def postRowGet (p : MPost) (key : String) : Except String String :=
  if key = "cat" then Except.ok p.cat
  else if key = "title" then Except.ok p.title
  else if key = "link" then Except.ok p.link
  else Except.error ("KeyError: " ++ key)

/-- ai_summary.generate_user_sum (lines 109-145) reduced to its success flag:
an empty mailbox fails; otherwise the grouping loop at line 129 reads
post["category_name"], a key the unread-posts rows do not carry, and the
handler at lines 140-145 reports failure. -/
def generate_user_sum (posts : List MPost) : Bool :=
  if posts.isEmpty then false
  else
    match posts.mapM (fun p => postRowGet p "category_name") with
    | Except.ok _ => true
    | Except.error _ => false

/-- db.get_unread_posts (lines 324-347): up to `limit` rows, newest first.
The insertion-ordered mailbox has strictly increasing created_at, so the
ORDER BY created_at DESC is list reversal. -/
def get_unread_posts (mailbox : List MPost) (limit : Nat) : List MPost :=
  mailbox.reverse.take limit

/-- ai_summary.send_sum_to_user (lines 148-187).  `deliverOk` is the outcome
of the external bot.fetch_user and user.send calls.  Returns the success flag
and the subscriber's mailbox afterwards: db.clear_unread_posts (lines 350-359)
runs only in the branch entered after a successful send and only when
clear_after is set. -/
def send_sum_to_user (mailbox : List MPost) (deliverOk clearAfter : Bool) :
    Bool × List MPost :=
  if generate_user_sum (get_unread_posts mailbox 50) then
    if deliverOk then
      (true, if clearAfter then [] else mailbox)
    else (false, mailbox)
  else (false, mailbox)

/-- Concrete entries and states used by the closed theorems below. -/
def entryA : RawEntry := { id := some "a" }

def entryB : RawEntry := { id := some "b" }

def entryC : RawEntry := { id := some "c" }

/-- An entry whose derived id is the empty string: no id, no link, and a title
key present but empty. -/
def entryBlank : RawEntry := { title := some "" }

def demoUser : UserRow :=
  { uid := 1, uname := "alice", cats := ["tech"], keywords := [] }

def demoEntry : RawEntry :=
  { id := some "e1", link := some "http://x/1", title := some "Hello" }

def demoState : PollState :=
  { last_seen := none, users := [demoUser], table := emptyTable }

def demoPost : MPost :=
  { pid := 1, uid := 1, cat := "tech", title := "Hello", link := "http://x/1",
    published := none, summary := none, created_at := 0 }

/-- C3: a poll with no stored watermark and a non-empty fetch marks exactly
one entry as new, namely the newest one (the head of the newest-first list). -/
theorem first_poll_marks_only_newest (e : RawEntry) (rest : List RawEntry) :
    (get_new_entries none (e :: rest)).1 = [e] := by
  simp only [get_new_entries, collect_new]
  split <;> rfl

/-- C4 as stated is false: with fetched entries [a, b] newest-first and the
stored watermark equal to the oldest entry's id "b", the poll does not return
an empty new-entry set with the watermark unchanged — it returns the newer
entry as new and advances the watermark to "a". -/
theorem watermark_at_oldest_not_idle :
    ¬((get_new_entries (some "b") [entryA, entryB]).1 = []
      ∧ (get_new_entries (some "b") [entryA, entryB]).2 = some "b") := by
  decide

/-- C4 amended: when the stored watermark equals the derived id of the newest
fetched entry (entries[0] of the newest-first list), the poll yields no new
entries and leaves the stored watermark unchanged. -/
theorem watermark_at_newest_is_idle (w : String) (e : RawEntry)
    (rest : List RawEntry) (h : w = get_entry_id e) :
    get_new_entries (some w) (e :: rest) = ([], some w) := by
  subst h
  simp [get_new_entries, collect_new]

/-- Witness for the amended C4 at a concrete input. -/
theorem watermark_at_newest_is_idle_witness :
    get_new_entries (some "a") [entryA, entryB] = ([], some "a") :=
  watermark_at_newest_is_idle "a" entryA [entryB] (by decide)

/-- C8: when evaluating the keyword filter raises an error (for example the
keyword lookup from storage fails), should_show_post fails open and returns
true. -/
theorem filter_fails_open (e title summary : String) :
    should_show_post (Except.error e) title summary = true := rfl

/-- The new-entry component of get_new_entries is the collecting loop's
result, whether or not the watermark is written. -/
theorem gne_fst (ls : Option String) (entries : List RawEntry) :
    (get_new_entries ls entries).1 = collect_new ls entries := by
  cases entries with
  | nil => rfl
  | cons e rest =>
    simp only [get_new_entries]
    split <;> rfl

/-- When the head entry derives exactly the stored watermark id, the loop
stops at once and nothing is written. -/
theorem gne_head_match (e : RawEntry) (rest : List RawEntry) :
    get_new_entries (some (get_entry_id e)) (e :: rest)
      = ([], some (get_entry_id e)) := by
  simp [get_new_entries, collect_new]

/-- When no fetched entry derives the watermark id, the loop never stops. -/
theorem collect_new_nomatch (w : String) (entries : List RawEntry)
    (h : ∀ e ∈ entries, get_entry_id e ≠ w) :
    collect_new (some w) entries = entries := by
  induction entries with
  | nil => rfl
  | cons e rest ih =>
    have he : get_entry_id e ≠ w := h e (List.mem_cons_self e rest)
    simp only [collect_new, if_neg he]
    rw [ih (fun x hx => h x (List.mem_cons_of_mem e hx))]

/-- C5: when the stored watermark id matches no fetched entry's derived id,
every fetched entry is marked new — the new set is the whole fetched list. -/
theorem missing_watermark_marks_all (w : String) (entries : List RawEntry)
    (h : ∀ e ∈ entries, get_entry_id e ≠ w) :
    (get_new_entries (some w) entries).1 = entries := by
  rw [gne_fst]
  exact collect_new_nomatch w entries h

/-- Witness for C5 at a concrete input. -/
theorem missing_watermark_marks_all_witness :
    (get_new_entries (some "z") [entryA, entryB]).1 = [entryA, entryB] :=
  missing_watermark_marks_all "z" [entryA, entryB] (by decide)

/-- C6 as stated is false: a feed whose single entry derives the empty id
(title key present but empty) yields a new entry on the first poll, yet the
truthiness guard on `latest_id` skips the watermark write, so the identical
second poll yields the same new entry again instead of none. -/
theorem second_poll_not_idempotent_on_blank_id :
    (get_new_entries (get_new_entries none [entryBlank]).2 [entryBlank]).1 ≠ [] := by
  decide

/-- Re-running get_new_entries on the same fetch finds nothing new and keeps
the watermark, provided the newest entry derives a non-empty id. -/
theorem second_run_empty (w : Option String) (entries : List RawEntry)
    (h : ∀ e rest, entries = e :: rest → get_entry_id e ≠ "") :
    get_new_entries (get_new_entries w entries).2 entries
      = ([], (get_new_entries w entries).2) := by
  cases entries with
  | nil => rfl
  | cons e rest =>
    have hid : get_entry_id e ≠ "" := h e rest rfl
    by_cases hc : collect_new w (e :: rest) = []
    · have h2 : get_new_entries w (e :: rest) = ([], w) := by
        simp only [get_new_entries]
        rw [hc]
        simp
      rw [h2]
      exact h2
    · have h2 : get_new_entries w (e :: rest)
          = (collect_new w (e :: rest), some (get_entry_id e)) := by
        simp only [get_new_entries]
        rw [if_pos ⟨hid, hc⟩]
      rw [h2]
      exact gne_head_match e rest

/-- The attribute process_feed asks the user_manager module for does not
exist, so the lookup fails. -/
theorem attr_lookup_fails :
    user_manager_attr "get_users_by_category"
      = Except.error
          "AttributeError: module user_manager has no attribute get_users_by_category" := by
  unfold user_manager_attr
  rw [if_neg (by decide)]
  rfl

/-- The state after process_feed on a fetched entry list: the watermark is
whatever get_new_entries stored, and nothing else changes (the fan-out never
runs because the subscriber-resolution attribute lookup fails). -/
theorem process_feed_snd (st : PollState) (cat : String)
    (entries : List RawEntry) :
    (process_feed st cat (some entries)).2
      = { st with last_seen := (get_new_entries st.last_seen entries).2 } := by
  simp only [process_feed]
  split
  · rfl
  · rw [attr_lookup_fails]

/-- process_feed always reports 0 new entries: every poll that finds new
entries dies in the fan-out's failed attribute lookup and the except-handler
returns 0. -/
theorem process_feed_fst (st : PollState) (cat : String)
    (fetch : Option (List RawEntry)) :
    (process_feed st cat fetch).1 = 0 := by
  cases fetch with
  | none => rfl
  | some entries =>
    simp only [process_feed]
    split
    · rfl
    · rw [attr_lookup_fails]

/-- C6 amended: polling the same feed twice with an unchanged entry list
yields zero new entries on the second run, leaves the stored watermark
unchanged on the second run, and grows no mailbox on the second run —
provided the newest fetched entry derives a non-empty id (the code skips the
watermark write when `latest_id` is falsy, which breaks idempotence, per the
counterexample). -/
theorem second_poll_idempotent (st : PollState) (cat : String)
    (entries : List RawEntry)
    (h : ∀ e rest, entries = e :: rest → get_entry_id e ≠ "") :
    (get_new_entries (process_feed st cat (some entries)).2.last_seen entries).1 = []
    ∧ (process_feed (process_feed st cat (some entries)).2 cat (some entries)).2.last_seen
        = (process_feed st cat (some entries)).2.last_seen
    ∧ (process_feed (process_feed st cat (some entries)).2 cat (some entries)).2.table
        = (process_feed st cat (some entries)).2.table := by
  have h2 := second_run_empty st.last_seen entries h
  rw [process_feed_snd st cat entries]
  rw [process_feed_snd { st with last_seen := (get_new_entries st.last_seen entries).2 } cat entries]
  refine ⟨?_, ?_, ?_⟩
  · simp [h2]
  · simp [h2]
  · simp

/-- Witness for the amended C6 at a concrete input. -/
theorem second_poll_idempotent_witness :
    (get_new_entries (process_feed demoState "tech" (some [demoEntry])).2.last_seen
        [demoEntry]).1 = []
    ∧ (process_feed (process_feed demoState "tech" (some [demoEntry])).2 "tech"
          (some [demoEntry])).2.last_seen
        = (process_feed demoState "tech" (some [demoEntry])).2.last_seen
    ∧ (process_feed (process_feed demoState "tech" (some [demoEntry])).2 "tech"
          (some [demoEntry])).2.table
        = (process_feed demoState "tech" (some [demoEntry])).2.table :=
  second_poll_idempotent demoState "tech" [demoEntry]
    (by intro e rest hE; injection hE with h1 h2; subst h1; decide)

/-- C1: at a failing input — fresh feed, one new entry, one user subscribed to
the category with no keywords — process_feed finds the new entry but enqueues
no unread post, returns 0 and leaves the unread table empty, because the
subscriber resolution asks for the nonexistent attribute get_users_by_category;
and the module's actual resolver get_users_by_cat returns [] on the same users
table because it reads the key "subscribed_cats" that user rows do not carry. -/
theorem fanout_enqueues_nothing :
    (get_new_entries demoState.last_seen [demoEntry]).1 = [demoEntry]
    ∧ (process_feed demoState "tech" (some [demoEntry])).1 = 0
    ∧ (process_feed demoState "tech" (some [demoEntry])).2.table = emptyTable
    ∧ get_users_by_cat [demoUser] "tech" = [] := by
  decide

/-- C10's last clause is false: entry b is marked new by the first poll of the
fresh feed [b, a]; a second poll of [c, b, a] advances the watermark to c; a
third poll in which the feed rewound to [b, a] no longer contains the
watermark id, so b is marked new a second time by a later poll. -/
theorem rewound_feed_redelivers :
    entryB ∈ (get_new_entries none [entryB, entryA]).1
    ∧ entryB ∈ (get_new_entries
        (get_new_entries (get_new_entries none [entryB, entryA]).2
          [entryC, entryB, entryA]).2 [entryB, entryA]).1 := by
  decide

/-- C10 amended: get_new_entries persists the watermark before any subscriber
resolution, enqueue or push, so on every poll that finds new entries (whose
newest entry derives a non-empty id) the fan-out failure makes process_feed
return 0 with the mailbox untouched while the watermark is already advanced
to the newest entry's id, and a repeated poll of the unchanged feed treats no
entry as new. -/
theorem watermark_advances_despite_fanout_failure (st : PollState)
    (cat : String) (e : RawEntry) (rest : List RawEntry)
    (hnew : (get_new_entries st.last_seen (e :: rest)).1 ≠ [])
    (hid : get_entry_id e ≠ "") :
    (process_feed st cat (some (e :: rest))).1 = 0
    ∧ (process_feed st cat (some (e :: rest))).2.table = st.table
    ∧ (process_feed st cat (some (e :: rest))).2.last_seen = some (get_entry_id e)
    ∧ (get_new_entries (some (get_entry_id e)) (e :: rest)).1 = [] := by
  have hw : (get_new_entries st.last_seen (e :: rest)).2 = some (get_entry_id e) := by
    have hc : collect_new st.last_seen (e :: rest) ≠ [] := by
      intro hcc
      apply hnew
      rw [gne_fst]
      exact hcc
    simp only [get_new_entries]
    rw [if_pos ⟨hid, hc⟩]
  refine ⟨process_feed_fst st cat (some (e :: rest)), ?_, ?_, ?_⟩
  · rw [process_feed_snd]
  · rw [process_feed_snd]
    simpa using hw
  · rw [gne_fst]
    simp [collect_new]

/-- Witness for the amended C10 at a concrete input. -/
theorem watermark_advances_despite_fanout_failure_witness :
    (process_feed demoState "tech" (some [demoEntry])).1 = 0
    ∧ (process_feed demoState "tech" (some [demoEntry])).2.table = demoState.table
    ∧ (process_feed demoState "tech" (some [demoEntry])).2.last_seen
        = some (get_entry_id demoEntry)
    ∧ (get_new_entries (some (get_entry_id demoEntry)) [demoEntry]).1 = [] :=
  watermark_advances_despite_fanout_failure demoState "tech" demoEntry []
    (by decide) (by decide)

/-- generate_user_sum never succeeds: an empty mailbox fails outright, and on
a non-empty one the category grouping reads the missing key "category_name"
and the exception handler reports failure. -/
theorem generate_user_sum_false (posts : List MPost) :
    generate_user_sum posts = false := by
  cases posts with
  | nil => rfl
  | cons p ps => rfl

/-- C9: send_sum_to_user leaves the subscriber's unread mailbox untouched
whenever it reports failure; db.clear_unread_posts runs only in the branch
entered after a successful delivery. -/
theorem mailbox_kept_on_failure (mb : List MPost) (d c : Bool)
    (_h : (send_sum_to_user mb d c).1 = false) :
    (send_sum_to_user mb d c).2 = mb := by
  simp [send_sum_to_user, generate_user_sum_false]

/-- Witness for C9 at a concrete input. -/
theorem mailbox_kept_on_failure_witness :
    (send_sum_to_user [demoPost] true true).2 = [demoPost] :=
  mailbox_kept_on_failure [demoPost] true true (by decide)

/-- Bool prefix test unfolded to its existential meaning. -/
theorem isPrefixOf_iff_exists {l1 l2 : List Char} :
    l1.isPrefixOf l2 = true ↔ ∃ t2, l2 = l1 ++ t2 := by
  induction l1 generalizing l2 with
  | nil => simp [List.isPrefixOf]
  | cons a as ih =>
    cases l2 with
    | nil => simp [List.isPrefixOf]
    | cons b bs =>
      simp only [List.isPrefixOf, Bool.and_eq_true, beq_iff_eq, ih, List.cons_append]
      constructor
      · rintro ⟨rfl, t2, rfl⟩
        exact ⟨t2, rfl⟩
      · rintro ⟨t2, hh⟩
        injection hh with h1 h2
        exact ⟨h1.symm, t2, h2⟩

/-- The Python substring test unfolded to its existential meaning. -/
theorem listContains_iff {needle hay : List Char} :
    listContains needle hay = true ↔ ∃ pre post, hay = pre ++ needle ++ post := by
  induction hay with
  | nil =>
    simp only [listContains, List.isEmpty_iff]
    constructor
    · intro h
      exact ⟨[], [], by simp [h]⟩
    · rintro ⟨pre, post, hpp⟩
      have hzz := hpp.symm
      simp only [List.append_eq_nil] at hzz
      exact hzz.1.2
  | cons c rest ih =>
    simp only [listContains, Bool.or_eq_true, ih, isPrefixOf_iff_exists]
    constructor
    · rintro (⟨t2, ht⟩ | ⟨pre, post, hpp⟩)
      · exact ⟨[], t2, by simpa using ht⟩
      · exact ⟨c :: pre, post, by simp [hpp]⟩
    · rintro ⟨pre, post, hpp⟩
      cases pre with
      | nil =>
        left
        exact ⟨post, by simpa using hpp⟩
      | cons x xs =>
        right
        simp only [List.cons_append] at hpp
        injection hpp with h1 h2
        exact ⟨xs, post, h2⟩

/-- C7 as stated is false: the code tests keywords against title and summary
joined with a space (the f-string "{title} {summary}"), not against their
plain concatenation; keyword "ab" with title "a" and summary "b" passes under
the concatenation reading but not in the code. -/
theorem keyword_space_join_mismatch :
    should_show_post (Except.ok ["ab"]) "a" "b" = false
    ∧ spec_keyword_pass ["ab"] "a" "b" = true := by
  decide

/-- C7 amended: with the keyword lookup succeeding, an empty keyword set
always passes, and a non-empty set passes iff some keyword, lowercased,
occurs as a contiguous substring of the lowercased title and summary joined
by a single space. -/
theorem keyword_filter_rule (ks : List String) (t s : String) :
    should_show_post (Except.ok ks) t s = true ↔
      ks = [] ∨ ∃ k ∈ ks, ∃ pre post : List Char,
        (pyLower (t ++ " " ++ s)).data = pre ++ (pyLower k).data ++ post := by
  cases ks with
  | nil => simp [should_show_post]
  | cons k0 krest =>
    simp only [should_show_post, List.isEmpty_cons, if_false, Bool.false_eq_true,
      ite_false, List.any_eq_true, pyIn]
    constructor
    · rintro ⟨k, hk, hcont⟩
      exact Or.inr ⟨k, hk, listContains_iff.1 hcont⟩
    · rintro (hnil | ⟨k, hk, hex⟩)
      · exact absurd hnil (by simp)
      · exact ⟨k, hk, listContains_iff.2 hex⟩

/-- Tables built by add_unread_post list their rows in strictly increasing
created_at order: each insert is stamped with the current clock, which
dominates every earlier row and then increases. -/
theorem enqueue_all_sorted (reqs : List EnqReq) (t : UnreadTable)
    (hcl : ∀ p ∈ t.rows, p.created_at < t.clock)
    (hpw : t.rows.Pairwise (fun a b => a.created_at < b.created_at)) :
    (enqueue_all t reqs).rows.Pairwise (fun a b => a.created_at < b.created_at) := by
  induction reqs generalizing t with
  | nil => exact hpw
  | cons r rs ih =>
    simp only [enqueue_all, List.foldl_cons]
    refine ih _ ?_ ?_
    · intro p hp
      simp only [add_unread_post, List.mem_append, List.mem_singleton] at hp
      rcases hp with hp | hp
      · exact Nat.lt_trans (hcl p hp) (Nat.lt_succ_self _)
      · subst hp
        exact Nat.lt_succ_self _
    · simp only [add_unread_post]
      rw [List.pairwise_append]
      refine ⟨hpw, by simp, ?_⟩
      intro a ha b hb
      simp only [List.mem_singleton] at hb
      subst hb
      exact hcl a ha

/-- The rows of one (subscriber, category) pair inherit the increasing
created_at order. -/
theorem pairRows_sorted (reqs : List EnqReq) (uid : Nat) (cat : String) :
    (pairRows (enqueue_all emptyTable reqs) uid cat).Pairwise
      (fun a b => a.created_at < b.created_at) := by
  have hs := enqueue_all_sorted reqs emptyTable
    (by intro p hp; simp [emptyTable] at hp) (by simp [emptyTable])
  exact List.Pairwise.sublist (List.filter_sublist _) hs

/-- On a strictly increasing list, keeping the elements with fewer than K
strictly-greater successors keeps exactly the final K elements. -/
theorem filter_topK (K : Nat) (m : List MPost)
    (hm : m.Pairwise (fun a b => a.created_at < b.created_at)) :
    m.filter (fun p =>
        decide ((m.filter (fun q => decide (p.created_at < q.created_at))).length < K))
      = m.drop (m.length - K) := by
  induction m with
  | nil => simp
  | cons p tl ih =>
    rw [List.pairwise_cons] at hm
    obtain ⟨hpt, hptl⟩ := hm
    have hhead : (p :: tl).filter (fun q => decide (p.created_at < q.created_at)) = tl := by
      rw [List.filter_cons, if_neg (by simp)]
      exact List.filter_eq_self.mpr (fun q hq => by simp [hpt q hq])
    have htail : tl.filter (fun x =>
          decide (((p :: tl).filter
            (fun q => decide (x.created_at < q.created_at))).length < K))
        = tl.filter (fun x =>
          decide ((tl.filter
            (fun q => decide (x.created_at < q.created_at))).length < K)) := by
      refine List.filter_congr (fun x hx => ?_)
      have hone : (p :: tl).filter (fun q => decide (x.created_at < q.created_at))
          = tl.filter (fun q => decide (x.created_at < q.created_at)) := by
        rw [List.filter_cons, if_neg]
        simp only [decide_eq_true_eq]
        exact Nat.lt_asymm (hpt x hx)
      rw [hone]
    have hcond : (decide (((p :: tl).filter
          (fun q => decide (p.created_at < q.created_at))).length < K))
        = decide (tl.length < K) := by rw [hhead]
    rw [List.filter_cons, hcond, htail, ih hptl]
    by_cases hK : tl.length < K
    · rw [if_pos (by simpa using hK)]
      have h0 : tl.length - K = 0 := Nat.sub_eq_zero_of_le (Nat.le_of_lt hK)
      have h1 : (p :: tl).length - K = 0 := by
        simp only [List.length_cons]
        omega
      rw [h0, h1, List.drop_zero, List.drop_zero]
    · rw [if_neg (by simpa using hK)]
      have h1 : (p :: tl).length - K = (tl.length - K) + 1 := by
        simp only [List.length_cons]
        omega
      rw [h1, List.drop_succ_cons]

/-- The pair's view of a trimmed table: the pair's rows filtered down to those
with fewer than K later-created rows in the pair. -/
theorem pairRows_trim (t : UnreadTable) (uid : Nat) (cat : String) (K : Nat) :
    pairRows (trim_unread_posts t uid cat K) uid cat
      = (pairRows t uid cat).filter (fun p =>
          decide (((pairRows t uid cat).filter
            (fun q => decide (p.created_at < q.created_at))).length < K)) := by
  unfold pairRows trim_unread_posts
  dsimp only
  rw [List.filter_filter, List.filter_filter]
  refine List.filter_congr (fun x hx => ?_)
  have hin : (t.rows.filter (fun q =>
        matchesPair uid cat q && decide (x.created_at < q.created_at)))
      = ((t.rows.filter (matchesPair uid cat)).filter
          (fun q => decide (x.created_at < q.created_at))) := by
    rw [List.filter_filter]
    exact List.filter_congr (fun q _ => Bool.and_comm _ _)
  cases hmx : matchesPair uid cat x
  · simp
  · simp only [Bool.not_true, Bool.false_or, Bool.and_true, Bool.true_and]
    rw [hin]

/-- C2: after any sequence of enqueues into an initially empty unread store,
trimming a (subscriber, category) pair with limit K leaves at most K posts
for the pair, and exactly the suffix of the K most recently created ones:
the pair's rows are listed in strictly increasing creation order and the trim
drops precisely the oldest surplus prefix. -/
theorem trim_keeps_most_recent (reqs : List EnqReq) (uid : Nat) (cat : String)
    (K : Nat) :
    (pairRows (trim_unread_posts (enqueue_all emptyTable reqs) uid cat K) uid cat).length ≤ K
    ∧ pairRows (trim_unread_posts (enqueue_all emptyTable reqs) uid cat K) uid cat
        = (pairRows (enqueue_all emptyTable reqs) uid cat).drop
            ((pairRows (enqueue_all emptyTable reqs) uid cat).length - K)
    ∧ (pairRows (enqueue_all emptyTable reqs) uid cat).Pairwise
        (fun a b => a.created_at < b.created_at) := by
  have hsorted := pairRows_sorted reqs uid cat
  have heq : pairRows (trim_unread_posts (enqueue_all emptyTable reqs) uid cat K) uid cat
      = (pairRows (enqueue_all emptyTable reqs) uid cat).drop
          ((pairRows (enqueue_all emptyTable reqs) uid cat).length - K) := by
    rw [pairRows_trim]
    exact filter_topK K _ hsorted
  refine ⟨?_, heq, hsorted⟩
  rw [heq, List.length_drop]
  omega

end Feeedy
